import Mathlib

/-!
Verification development for the Clause-Ai contract-analysis pipeline.

Shallow embedding of the core modules:
  * `src/utils/risk_score.py`       — text-scan risk scorer with negation-aware matching
  * `src/agents/executor_agent.py`  — master executor (pipeline, parallel agents, risk aggregation)
  * `src/utils/hybrid_llm.py`       — tiered LLM gateway (Groq → Ollama → static fallback)
  * `src/utils/parallel_runner.py`  — parallel task runner with failure isolation
  * `src/memory/memory.py`          — in-memory contract session store with duplicate detection
  * `src/utils/history_manager.py`  — file-backed bounded history

Strings are modelled by Lean `String` / `List Char`; Python float arithmetic that only
passes through exact small values is modelled by exact rational arithmetic (`ℚ`);
Python `dict`s (insertion-ordered) are modelled by association lists with unique keys;
network I/O is modelled by explicit environment values carrying each provider's outcome.
-/

namespace ClauseAi

/-! ## `src/utils/risk_score.py` — string-scanning primitives

Python substring search (`x in s`) and `re.finditer` over a `re.escape`d (hence
literal) pattern, modelled over `List Char`. -/

/-- `matchAt hay needle i` : the literal `needle` occurs in `hay` starting at index `i`
(the whole needle fits). Mirrors a regex literal match of `re.escape(keyword)`. -/
def matchAt (hay needle : List Char) (i : Nat) : Bool :=
  (hay.drop i).take needle.length == needle

/-- Python's `sub in s` substring test. -/
def containsSub (hay needle : List Char) : Bool :=
  (List.range (hay.length + 1)).any (fun i => matchAt hay needle i)

/-- The least match position `≥ pos`, as Python's `re` scanner would find next. -/
def firstMatchFrom (hay needle : List Char) (pos : Nat) : Option Nat :=
  ((List.range (hay.length + 1)).drop pos).find? (fun i => matchAt hay needle i)

/-- Left-to-right, non-overlapping match positions, as produced by `re.finditer`
on a literal pattern. `fuel` bounds the recursion; `hay.length + 1` suffices. -/
def finditerAux (fuel : Nat) (hay needle : List Char) (pos : Nat) : List Nat :=
  match fuel with
  | 0 => []
  | fuel + 1 =>
    match firstMatchFrom hay needle pos with
    | none => []
    | some i => i :: finditerAux fuel hay needle (i + needle.length + (if needle.isEmpty then 1 else 0))

/-- All `re.finditer` match positions of the literal `needle` in `hay`. -/
def finditer (hay needle : List Char) : List Nat :=
  finditerAux (hay.length + 1) hay needle 0

/-- The negation markers of `_contains_term` (risk_score.py line 163). -/
def negationTerms : List (List Char) :=
  [String.toList "no ", String.toList "not ", String.toList "without ",
   String.toList "absence of "]

/-- `negatedAt text start` : the up-to-25-character window before `start`
(`text_lower[max(0, start-25):start]`) contains a negation marker. -/
def negatedAt (text : List Char) (start : Nat) : Bool :=
  let s := start - 25
  let pre := (text.drop s).take (start - s)
  negationTerms.any (fun n => containsSub pre n)

/-- `_contains_term` (risk_score.py lines 146–168): true iff some `re.finditer`
occurrence of the keyword is not preceded by a negation marker in the 25-char window. -/
def containsTerm (text_lower keyword : List Char) : Bool :=
  if text_lower.isEmpty then false
  else (finditer text_lower keyword).any (fun i => ! negatedAt text_lower i)

/-- High-risk keyword list (risk_score.py lines 31–39). -/
def high_risk_keywords : List (List Char) :=
  [String.toList "unlimited liability", String.toList "unlimited indemn",
   String.toList "perpetual", String.toList "irrevocable",
   String.toList "liquidated damages", String.toList "sole discretion",
   String.toList "waive"]

/-- Medium-risk keyword list (risk_score.py lines 42–53). -/
def medium_risk_keywords : List (List Char) :=
  [String.toList "termination", String.toList "breach", String.toList "penalty",
   String.toList "interest", String.toList "indemnity", String.toList "confidential",
   String.toList "non-compete", String.toList "non solicitation",
   String.toList "assignment", String.toList "auto-renew"]

/-- Protective keyword list (risk_score.py lines 56–65). -/
def protective_keywords : List (List Char) :=
  [String.toList "liability cap", String.toList "limited liability",
   String.toList "governing law", String.toList "arbitration",
   String.toList "notice period", String.toList "data protection",
   String.toList "encrypted", String.toList "backup"]

/-- Number of keywords of `ks` detected (non-negated) in `text`. Each detected
high/medium/protective keyword contributes one fixed increment in the scorer. -/
def countHits (text : List Char) (ks : List (List Char)) : Int :=
  ((ks.filter (fun k => containsTerm text k)).length : Int)

/-- Python's `str.strip()` (no argument): remove leading and trailing whitespace.
Defined structurally over the character list (Lean's own `String.trim` is
byte-position based and has the same meaning on these texts). -/
def pyStrip (s : String) : String :=
  ⟨((s.toList.dropWhile Char.isWhitespace).reverse.dropWhile Char.isWhitespace).reverse⟩

/-- Python's binary `max` on integers. -/
def pymax (a b : Int) : Int := if a < b then b else a

/-- Python's binary `min` on integers. -/
def pymin (a b : Int) : Int := if b < a then b else a

/-- Python's `str.lower()` restricted to the ASCII texts this scorer receives. -/
def lowerChars (s : String) : List Char := s.toList.map Char.toLower

/-- `calculate_risk_score` (risk_score.py lines 16–91): base 35, +15 per high-risk hit,
+6 per medium hit, −5 per protective hit, clamped to `[5,100]`, bucketed at 70 / 40.
The `None` / non-`str` guard of line 24 is the `contract_text = ""` case here (the
embedding's input is always a string; an empty string is Python-falsy). -/
def calculate_risk_score (contract_text : String) : String × Int :=
  if contract_text = "" then ("Low", 25)
  else
    let text_lower := lowerChars contract_text
    let score : Int := 35 + 15 * countHits text_lower high_risk_keywords
      + 6 * countHits text_lower medium_risk_keywords
      - 5 * countHits text_lower protective_keywords
    let score := pymax 5 (pymin score 100)
    let level := if score ≥ 70 then "High" else if score ≥ 40 then "Medium" else "Low"
    (level, score)

/-! ## `src/utils/parallel_runner.py` and `executor_agent._run_parallel_agents`

A task handed to the thread pool either returns a value, raises, or exceeds the
per-task timeout.  The runner observes tasks in completion order — an arbitrary
permutation of the submitted tasks — and keys results by task name, so the
completion order is an explicit argument of the embedding. -/

/-- Outcome of one task as observed through `future.result(...)`. -/
inductive TaskOutcome where
  | ok (v : String) : TaskOutcome
  | raises : TaskOutcome
  | timeout : TaskOutcome
deriving DecidableEq, Repr

/-- The `try/except` around `future.result` in `run_parallel_dict`
(parallel_runner.py lines 91–98): value on success, `"TIMEOUT"` / `"ERROR"` placeholders. -/
def interpretOutcome : TaskOutcome → String
  | .ok v => v
  | .timeout => "TIMEOUT"
  | .raises => "ERROR"

/-- `run_parallel_dict` (parallel_runner.py lines 61–101).  `completed` is the
submitted `task_dict` in completion order (`as_completed`); each future's outcome
is recorded under its task name. -/
def run_parallel_dict (completed : List (String × TaskOutcome)) : List (String × String) :=
  if completed.isEmpty then []
  else completed.map (fun p => (p.1, interpretOutcome p.2))

/-- Outcomes of the four fixed agents submitted by
`ExecutorAgent._run_parallel_agents` (executor_agent.py lines 127–132). -/
structure AgentOutcomes where
  legal : TaskOutcome
  finance : TaskOutcome
  compliance : TaskOutcome
  operations : TaskOutcome
deriving DecidableEq, Repr

/-- The four entries of the executor's `outputs` dict. -/
structure AgentOutputs where
  legal : String
  finance : String
  compliance : String
  operations : String
deriving DecidableEq, Repr

/-- The `try/except` of `_run_parallel_agents` (executor_agent.py lines 139–144):
the returned string on success, `""` on exception or timeout. -/
def interpretAgentOutcome : TaskOutcome → String
  | .ok v => v
  | .raises => ""
  | .timeout => ""

/-- `ExecutorAgent._run_parallel_agents` (executor_agent.py lines 118–146), with each
agent call's observed outcome supplied by the environment.  Result assembly is keyed
by name, so the completion order does not appear. -/
def runParallelAgents (oc : AgentOutcomes) : AgentOutputs :=
  { legal := interpretAgentOutcome oc.legal
    finance := interpretAgentOutcome oc.finance
    compliance := interpretAgentOutcome oc.compliance
    operations := interpretAgentOutcome oc.operations }

/-! ## `src/agents/executor_agent.py` — risk aggregation and the full pipeline -/

/-- Python `int()` applied to a (here exactly represented) float: truncation toward zero. -/
def truncQ (q : ℚ) : Int := if 0 ≤ q then ⌊q⌋ else -⌊-q⌋

/-- A clause record as consumed by `_calculate_risk`: only its `risk_score` entry
matters.  `riskScore = some n` models `int(c.get("risk_score", 50))` succeeding with
value `n` (a missing key yields `some 50`); `riskScore = none` models the conversion
raising, in which case the `except: pass` skips the clause. -/
structure Clause where
  riskScore : Option Int
deriving DecidableEq, Repr

/-- `ExecutorAgent._calculate_risk` (executor_agent.py lines 151–171): base 50,
averaged with the mean clause score when any clause score converts, truncated by
`int()`, clamped to `[0,100]`, bucketed at 30 / 70.  Python's float arithmetic on
these values is modelled exactly in `ℚ`. -/
def calculateRisk (clauses : List Clause) : String × Int :=
  let clause_scores : List Int := clauses.filterMap (fun c => c.riskScore)
  let base : Int :=
    if clause_scores.isEmpty then 50
    else truncQ ((50 + (clause_scores.sum : ℚ) / (clause_scores.length : ℚ)) / 2)
  let base := pymax 0 (pymin 100 base)
  if base < 30 then ("Low", base)
  else if base < 70 then ("Medium", base)
  else ("High", base)

/-- The spec's aggregation formula, written from its words
(`round((50 + mean(clause_scores)) / 2)` clamped to `[0,100]`), for comparison with
`calculateRisk`.  `round` is rounding to the nearest integer. -/
def specRoundScore (scores : List Int) : Int :=
  pymax 0 (pymin 100 (round ((50 + (scores.sum : ℚ) / (scores.length : ℚ)) / 2)))

/-- The amended aggregation formula, written from the amended claim's words: Python
`int()` truncation (toward zero) in place of the spec's `round`, clamped to `[0,100]`. -/
def specTruncScore (scores : List Int) : Int :=
  pymax 0 (pymin 100 (truncQ ((50 + (scores.sum : ℚ) / (scores.length : ℚ)) / 2)))

/-- The `results` dict built by `execute_full_analysis` (executor_agent.py lines 39–52).
`execution_time` is wall-clock time, out of scope of the functional model; it is `0`
both initially and on the early empty-input return path modelled here. -/
structure AnalysisResult where
  status : String
  contract_type : String
  legal : String
  finance : String
  compliance : String
  operations : String
  clauses : List Clause
  final_report : String
  risk_level : String
  risk_score : Int
  execution_time : Int
  errors : List String
deriving DecidableEq, Repr

/-- The initial `results` value (executor_agent.py lines 39–52). -/
def initialResult : AnalysisResult :=
  { status := "started", contract_type := "Other", legal := "", finance := ""
    compliance := "", operations := "", clauses := [], final_report := ""
    risk_level := "Medium", risk_score := 50, execution_time := 0, errors := [] }

/-- The collaborating stages invoked by `execute_full_analysis`, as environment
functions: the classifier, the four agent calls (their observed outcomes), clause
extraction/analysis, and the gateway-backed summary agent.  Modelling them as
arguments lets a theorem state that a code path performs no such call: the result is
then the same for every instantiation. -/
structure Pipeline where
  classifySimple : String → String
  agentTasks : String → String → String → AgentOutcomes
  extractClauses : String → List String
  analyzeClauses : List String → List Clause
  summaryAgent : String → AgentOutputs → String → String → String

/-- `ExecutorAgent.execute_full_analysis` (executor_agent.py lines 34–113).
`contract_text : Option String` models the `str | None` parameter;
`(contract_text or "").strip()` is `pyStrip (contract_text.getD "")`.  The stages are
modelled as total functions (each of the real ones catches its own exceptions), so
the `except` branch of lines 107–110 is unreachable in the model. -/
def executeFullAnalysis (p : Pipeline) (contract_text : Option String)
    (user_focus : String) : AnalysisResult :=
  let safe_text := pyStrip (contract_text.getD "")
  if safe_text = "" then
    { initialResult with status := "failed", errors := ["No contract text provided"] }
  else
    let ctype := p.classifySimple safe_text
    let outs := runParallelAgents (p.agentTasks safe_text ctype user_focus)
    let rawClauses := p.extractClauses safe_text
    let clauses := if rawClauses.isEmpty then [] else p.analyzeClauses rawClauses
    let report := p.summaryAgent safe_text outs ctype user_focus
    let (lvl, score) := calculateRisk clauses
    { status := "completed", contract_type := ctype, legal := outs.legal
      finance := outs.finance, compliance := outs.compliance
      operations := outs.operations, clauses := clauses, final_report := report
      risk_level := lvl, risk_score := score, execution_time := 0, errors := [] }

/-- A concrete pipeline with constant stages, used to instantiate theorems. -/
def constPipeline : Pipeline :=
  { classifySimple := fun _ => "Other"
    agentTasks := fun _ _ _ => ⟨.ok "", .ok "", .ok "", .ok ""⟩
    extractClauses := fun _ => []
    analyzeClauses := fun _ => []
    summaryAgent := fun _ _ _ _ => "" }

/-- A second concrete pipeline, different from `constPipeline` on every stage, used
to witness that a code path consults no stage. -/
def altPipeline : Pipeline :=
  { classifySimple := fun _ => "NDA"
    agentTasks := fun _ _ _ => ⟨.raises, .timeout, .ok "done", .raises⟩
    extractClauses := fun s => [s]
    analyzeClauses := fun _ => [⟨some 90⟩]
    summaryAgent := fun _ _ _ _ => "full report" }

/-! ## `src/utils/hybrid_llm.py` — tiered gateway

Network behaviour is an explicit environment: each provider either fails (HTTP
error, transport exception, missing key, malformed body — all collapsed by the
source's own `try/except` into returning `None`) or yields a content string. -/

/-- Observed provider behaviour for one `call_hybrid_llm` invocation:
`none` = any failure path of the provider call, `some s` = HTTP 200 with content `s`
(before `.strip()`). -/
structure LlmEnv where
  groq : Option String
  ollama : Option String

/-- `call_groq` (hybrid_llm.py lines 38–77): `None` on any failure, otherwise the
stripped `choices[0].message.content`. -/
def call_groq (env : LlmEnv) : Option String :=
  env.groq.map String.trim

/-- `call_ollama` (hybrid_llm.py lines 83–115): `None` for an empty prompt or any
failure, otherwise the stripped `response` field.  The throttling sleep and the
`prompt[:2000]` truncation affect timing and the request only, not the result. -/
def call_ollama (env : LlmEnv) (prompt : String) : Option String :=
  if prompt = "" then none
  else env.ollama.map String.trim

/-- The static fallback of `call_hybrid_llm` (hybrid_llm.py lines 150–153). -/
def hybridFallback (role : String) : String :=
  if role = "summary" ∨ role = "report" then "Final report unavailable. Please retry."
  else "Analysis unavailable. Please retry."

/-- The Ollama tier of `call_hybrid_llm` (hybrid_llm.py lines 141–153). -/
def hybridOllamaStage (env : LlmEnv) (prompt role : String) : String :=
  match call_ollama env prompt with
  | some l => if 5 < l.length then l else hybridFallback role
  | none => hybridFallback role

/-- `call_hybrid_llm` (hybrid_llm.py lines 121–153): Groq, then Ollama, then the
static fallback; a provider response is accepted only when truthy and longer than
5 characters. -/
def call_hybrid_llm (env : LlmEnv) (prompt : String) (role : String) : String :=
  if prompt = "" then "No prompt provided"
  else
    match call_groq env with
    | some g => if 5 < g.length then g else hybridOllamaStage env prompt role
    | none => hybridOllamaStage env prompt role

/-! ## Association-list model of insertion-ordered Python dicts

`d[k] = v` keeps an existing key at its original position and appends a new key at
the end; `del d[k]` removes the key's single entry.  Keys are unique (an invariant
dicts maintain by construction, carried here as a `Nodup` hypothesis where needed). -/

/-- Python `d[k] = v`: update in place if `k` is present, else append. -/
def dictInsert {α : Type} (l : List (String × α)) (k : String) (v : α) :
    List (String × α) :=
  if l.any (fun p => p.1 == k) then
    l.map (fun p => if p.1 == k then (k, v) else p)
  else l ++ [(k, v)]

/-- Python `del d[k]`: remove the entry with key `k` (unique when keys are `Nodup`). -/
def dictDelete {α : Type} (l : List (String × α)) (k : String) : List (String × α) :=
  l.eraseP (fun p => p.1 == k)

/-! ## `src/memory/memory.py` — contract session store -/

/-- Python's `s or default` for a possibly-`None` string `s`: the default replaces
`None` and the empty string. -/
def pyOrStr (s : Option String) (default : String) : String :=
  match s with
  | none => default
  | some "" => default
  | some v => v

/-- One value of `self.sessions` (memory.py lines 42–49). -/
structure SessionData where
  name : String
  text : String
  stype : String
  analyses : List (String × String)
  final_report : String
  created : String
deriving DecidableEq, Repr

/-- `ContractMemory` state: `self.sessions` and `self.contract_hash_map`
(memory.py lines 21–23). -/
structure ContractMemory where
  sessions : List (String × SessionData)
  contract_hash_map : List (String × String)
deriving DecidableEq, Repr

/-- `ContractMemory._hash` (memory.py lines 119–120): `md5(text.strip()).hexdigest()`.
The MD5 digest is modelled by the stripped text itself — an injective abstraction of
a digest that is a function of exactly `text.strip()` (hash collisions are out of
scope).  Every property proved here uses only that the digest is determined by the
stripped text. -/
def memHash (text : String) : String := pyStrip text

/-- `ContractMemory.find_duplicate` (memory.py lines 85–90). -/
def ContractMemory.find_duplicate (m : ContractMemory) (contract_text : String) :
    Option String :=
  if contract_text = "" then none
  else m.contract_hash_map.lookup (memHash contract_text)

/-- `ContractMemory.create_session` (memory.py lines 28–56).
`contract_text : Option String` models the Python argument that may be `None`; the
falsy guard `if not contract_text` raises `ValueError("Empty contract text")` for
`none` and `some ""`.  `fresh` stands for the timestamp-and-uuid session id of
line 40 and `created` for the timestamp string of line 48, both supplied by the
environment.  Returns the raised error or the session id, paired with the resulting
store (unchanged when the call raises or finds a duplicate). -/
def ContractMemory.create_session (m : ContractMemory) (fresh created : String)
    (contract_name : Option String) (contract_text : Option String)
    (contract_type : Option String) : Except String String × ContractMemory :=
  match contract_text with
  | none => (.error "Empty contract text", m)
  | some text =>
    if text = "" then (.error "Empty contract text", m)
    else
      match m.find_duplicate text with
      | some dup => (.ok dup, m)
      | none =>
        let session_id := fresh
        let data : SessionData :=
          { name := pyOrStr contract_name "Untitled Contract"
            text := text
            stype := pyOrStr contract_type "Unknown"
            analyses := [], final_report := "", created := created }
        let sessions := dictInsert m.sessions session_id data
        let h := memHash text
        (.ok session_id,
         { sessions := sessions, contract_hash_map := dictInsert m.contract_hash_map h session_id })

/-- `ContractMemory.store_analysis` (memory.py lines 61–68): no-op when the session
id is unknown, else set `session["analyses"][agent_name]` (with `result or ""`,
which is the identity on strings). -/
def ContractMemory.store_analysis (m : ContractMemory) (session_id agent_name result : String) :
    ContractMemory :=
  match m.sessions.lookup session_id with
  | none => m
  | some s =>
    let s := { s with analyses := dictInsert s.analyses agent_name result }
    { m with sessions := dictInsert m.sessions session_id s }

/-- `ContractMemory.store_final_report` (memory.py lines 73–80): no-op when the
session id is unknown, else set `session["final_report"]`. -/
def ContractMemory.store_final_report (m : ContractMemory) (session_id report : String) :
    ContractMemory :=
  match m.sessions.lookup session_id with
  | none => m
  | some s =>
    { m with sessions := dictInsert m.sessions session_id ({ s with final_report := report }) }

/-! ## `src/utils/history_manager.py` — bounded file-backed history -/

/-- `MAX_HISTORY` (history_manager.py line 7). -/
def MAX_HISTORY : Nat := 10

/-- `get_contract_hash` (history_manager.py lines 40–41): `md5(text).hexdigest()`,
modelled by the text itself (injective abstraction; the digest is a function of
exactly the unstripped text). -/
def get_contract_hash (text : String) : String := text

/-- One value of the history JSON object (history_manager.py lines 59–68).
The `date` field is the environment-supplied timestamp of line 61. -/
structure HistoryEntry where
  name : String
  date : String
  risk : String
  contract_type : String
  report : String
  agents : String
  planner : String
  text : String
deriving DecidableEq, Repr

/-- `save_contract` (history_manager.py lines 47–75) acting on the loaded history
object (the JSON file round-trip preserves the insertion-ordered object): insert the
entry under the contract's hash, then, if more than `MAX_HISTORY` entries remain,
delete the entry under `list(history.keys())[0]`. -/
def save_contract (history : List (String × HistoryEntry))
    (contract_name contract_text contract_type risk_level final_report
     agents planner date : String) : List (String × HistoryEntry) :=
  let h := get_contract_hash contract_text
  let entry : HistoryEntry :=
    { name := contract_name, date := date, risk := risk_level
      contract_type := contract_type, report := final_report
      agents := agents, planner := planner, text := contract_text }
  let history := dictInsert history h entry
  if MAX_HISTORY < history.length then
    match history.head? with
    | none => history
    | some p => dictDelete history p.1
  else history

/-- A fixed history entry used to instantiate theorems on concrete states. -/
def sampleEntry : HistoryEntry :=
  { name := "n", date := "d", risk := "Low", contract_type := "NDA"
    report := "rep", agents := "a", planner := "p", text := "x" }

/-- A full (ten-entry) history used to instantiate the eviction theorem. -/
def sampleHistory : List (String × HistoryEntry) :=
  [("k0", sampleEntry), ("k1", sampleEntry), ("k2", sampleEntry), ("k3", sampleEntry),
   ("k4", sampleEntry), ("k5", sampleEntry), ("k6", sampleEntry), ("k7", sampleEntry),
   ("k8", sampleEntry), ("k9", sampleEntry)]

end ClauseAi

/-! ## Helper lemmas -/

namespace ClauseAi

/-- Every position produced by `finditerAux` is a genuine match position within the text. -/
lemma finditerAux_mem_matchAt (fuel : Nat) (hay needle : List Char) (pos i : Nat)
    (h : i ∈ finditerAux fuel hay needle pos) :
    matchAt hay needle i = true ∧ i ≤ hay.length := by
  induction fuel generalizing pos with
  | zero => simp [finditerAux] at h
  | succ fuel ih =>
    rw [finditerAux] at h
    cases hfm : firstMatchFrom hay needle pos with
    | none => rw [hfm] at h; simp at h
    | some j =>
      rw [hfm] at h
      rcases List.mem_cons.mp h with rfl | htail
      · have h1 := List.find?_some hfm
        have h2 : i ∈ (List.range (hay.length + 1)).drop pos :=
          List.mem_of_find?_eq_some hfm
        have h3 : i < hay.length + 1 :=
          List.mem_range.mp (List.mem_of_mem_drop h2)
        exact ⟨h1, Nat.lt_succ_iff.mp h3⟩
      · exact ih _ htail

/-- `run_parallel_dict` is exactly the per-task interpretation of the completed futures. -/
lemma run_parallel_dict_eq_map (completed : List (String × TaskOutcome)) :
    run_parallel_dict completed = completed.map (fun p => (p.1, interpretOutcome p.2)) := by
  cases completed with
  | nil => rfl
  | cons a l => rfl

/-- A non-empty list has `isEmpty = false`. -/
lemma isEmpty_false_of_ne_nil {α : Type} {l : List α} (h : l ≠ []) : l.isEmpty = false := by
  cases l with
  | nil => exact absurd rfl h
  | cons a l => rfl

/-- The three-tier bucketing of `_calculate_risk` always carries the score through
unchanged as the second component. -/
lemma snd_ite_level (x : Int) :
    (if x < 30 then ("Low", x) else if x < 70 then ("Medium", x) else ("High", x)).2 = x := by
  by_cases h30 : x < 30
  · rw [if_pos h30]
  · rw [if_neg h30]
    by_cases h70 : x < 70
    · rw [if_pos h70]
    · rw [if_neg h70]

/-- The score component of `calculateRisk` is the clamped, truncated
base-averaged-with-mean formula. -/
lemma calculateRisk_snd (cs : List Clause) :
    (calculateRisk cs).2 =
      pymax 0 (pymin 100 (if (cs.filterMap (fun c => c.riskScore)).isEmpty then 50
        else truncQ ((50 + (((cs.filterMap (fun c => c.riskScore)).sum : Int) : ℚ) /
          ((cs.filterMap (fun c => c.riskScore)).length : ℚ)) / 2))) := by
  unfold calculateRisk
  dsimp only
  exact snd_ite_level _

/-- `dictInsert` on a present key updates in place. -/
lemma dictInsert_of_mem {α : Type} {l : List (String × α)} {k : String} (v : α)
    (hin : l.any (fun p => p.1 == k) = true) :
    dictInsert l k v = l.map (fun p => if p.1 == k then (k, v) else p) := by
  unfold dictInsert
  rw [if_pos hin]

/-- `dictInsert` on an absent key appends. -/
lemma dictInsert_of_not_mem {α : Type} {l : List (String × α)} {k : String} (v : α)
    (hin : l.any (fun p => p.1 == k) = false) :
    dictInsert l k v = l ++ [(k, v)] := by
  unfold dictInsert
  rw [hin]
  rfl

/-- A key absent from the key list fails every per-entry key test. -/
lemma any_key_eq_false {α : Type} {l : List (String × α)} {k : String}
    (h : k ∉ l.map Prod.fst) : l.any (fun p => p.1 == k) = false := by
  rw [List.any_eq_false]
  intro p hp
  simp only [beq_iff_eq]
  intro he
  exact h (he ▸ List.mem_map_of_mem Prod.fst hp)

/-- In-place update of a present key: looking the key up afterwards finds the new value. -/
lemma lookup_map_update {α : Type} (l : List (String × α)) (k : String) (v : α) :
    l.any (fun p => p.1 == k) = true →
    (l.map (fun p => if p.1 == k then (k, v) else p)).lookup k = some v := by
  induction l with
  | nil => intro hany; simp at hany
  | cons p l ih =>
    intro hany
    obtain ⟨a, b⟩ := p
    rw [List.map_cons]
    by_cases hak : a = k
    · rw [if_pos (by simp [hak])]
      simp
    · rw [if_neg (by simp [hak])]
      rw [List.lookup_cons]
      have hka : (k == a) = false := by
        simp only [beq_eq_false_iff_ne]
        exact fun h => hak h.symm
      rw [hka]
      apply ih
      simp only [List.any_cons] at hany
      have hac : (a == k) = false := by simp [hak]
      rw [hac] at hany
      simpa using hany

/-- Appending a new key: looking it up afterwards finds the appended value. -/
lemma lookup_append_single {α : Type} (l : List (String × α)) (k : String) (v : α) :
    l.any (fun p => p.1 == k) = false →
    (l ++ [(k, v)]).lookup k = some v := by
  induction l with
  | nil => intro _; simp
  | cons p l ih =>
    intro hnone
    obtain ⟨a, b⟩ := p
    simp only [List.any_cons, Bool.or_eq_false_iff] at hnone
    rw [List.cons_append, List.lookup_cons]
    have hka : (k == a) = false := by
      simp only [beq_eq_false_iff_ne]
      intro h
      rw [h] at hnone
      simp at hnone
    rw [hka]
    exact ih hnone.2

/-- Looking up the just-inserted key of `dictInsert` yields the inserted value. -/
lemma lookup_dictInsert_self {α : Type} (l : List (String × α)) (k : String) (v : α) :
    (dictInsert l k v).lookup k = some v := by
  cases hany : l.any (fun p => p.1 == k) with
  | true => rw [dictInsert_of_mem v hany]; exact lookup_map_update l k v hany
  | false => rw [dictInsert_of_not_mem v hany]; exact lookup_append_single l k v hany

/-- A `hybridFallback` value is one of the two static strings. -/
lemma hybridFallback_cases (role : String) :
    hybridFallback role = "Final report unavailable. Please retry." ∨
    hybridFallback role = "Analysis unavailable. Please retry." := by
  unfold hybridFallback
  split
  · exact Or.inl rfl
  · exact Or.inr rfl

/-- A string longer than 5 characters is not empty. -/
lemma ne_empty_of_five_lt_length {s : String} (h : 5 < s.length) : s ≠ "" := by
  intro he
  subst he
  simp at h

/-- The Ollama tier either forwards an accepted (length > 5) Ollama response or
returns a static fallback string, and its result is never empty. -/
lemma hybridOllamaStage_spec (env : LlmEnv) (prompt role : String) :
    hybridOllamaStage env prompt role ≠ "" ∧
    ((5 < (hybridOllamaStage env prompt role).length ∧
        call_ollama env prompt = some (hybridOllamaStage env prompt role)) ∨
      hybridOllamaStage env prompt role = "Final report unavailable. Please retry." ∨
      hybridOllamaStage env prompt role = "Analysis unavailable. Please retry.") := by
  unfold hybridOllamaStage
  cases ho : call_ollama env prompt with
  | none =>
    dsimp only
    refine ⟨?_, Or.inr (hybridFallback_cases role)⟩
    rcases hybridFallback_cases role with h | h <;> rw [h] <;> decide
  | some l =>
    dsimp only
    by_cases hl : 5 < l.length
    · rw [if_pos hl]
      exact ⟨ne_empty_of_five_lt_length hl, Or.inl ⟨hl, rfl⟩⟩
    · rw [if_neg hl]
      refine ⟨?_, Or.inr (hybridFallback_cases role)⟩
      rcases hybridFallback_cases role with h | h <;> rw [h] <;> decide

end ClauseAi

/-! ## Claims -/

namespace ClauseAi

set_option maxRecDepth 10000 in
/-- C3 counterexample: on the exact scenario input, `calculate_risk_score` returns
a score below 70 and a level other than `"High"`, contradicting the claimed
`score ≥ 70 ∧ level = "High"`.  (The protective keywords `"limited liability"` —
a substring of `"unlimited liability"` — and `"governing law"` each subtract 5,
and only `"unlimited liability"`, `"liquidated damages"` and `"indemnity"` add.) -/
theorem scan_scenario_score_below_high :
    (calculate_risk_score "This agreement includes unlimited liability and indemnity. Liquidated damages apply. Governing law is India.").2 < 70 ∧
    (calculate_risk_score "This agreement includes unlimited liability and indemnity. Liquidated damages apply. Governing law is India.").1 ≠ "High" := by
  decide

set_option maxRecDepth 10000 in
/-- C3 amended: the scenario input yields exactly score 61 and level `"Medium"`:
base 35, +15 for `"unlimited liability"`, +15 for `"liquidated damages"`, +6 for
`"indemnity"`, −5 for `"limited liability"` (matched inside `"unlimited liability"`),
−5 for `"governing law"`. -/
theorem scan_scenario_score_medium_61 :
    calculate_risk_score "This agreement includes unlimited liability and indemnity. Liquidated damages apply. Governing law is India." = ("Medium", 61) := by
  decide

/-- C9: `store_analysis` and `store_final_report` on a session id that is not in the
store return without modifying the memory state at all (sessions and hash map). -/
theorem store_unknown_session_is_noop (m : ContractMemory)
    (session_id agent_name result report : String)
    (h : m.sessions.lookup session_id = none) :
    m.store_analysis session_id agent_name result = m ∧
    m.store_final_report session_id report = m := by
  constructor
  · unfold ContractMemory.store_analysis
    rw [h]
  · unfold ContractMemory.store_final_report
    rw [h]

/-- C9 witness: a store holding only session `"s1"` is untouched by mutations
addressed to the unknown session `"s2"`. -/
theorem store_unknown_session_is_noop_witness :
    (ContractMemory.mk [("s1", ⟨"n", "t", "ty", [], "", "c"⟩)] [("t", "s1")]).store_analysis
        "s2" "legal" "result" =
      ContractMemory.mk [("s1", ⟨"n", "t", "ty", [], "", "c"⟩)] [("t", "s1")] ∧
    (ContractMemory.mk [("s1", ⟨"n", "t", "ty", [], "", "c"⟩)] [("t", "s1")]).store_final_report
        "s2" "report" =
      ContractMemory.mk [("s1", ⟨"n", "t", "ty", [], "", "c"⟩)] [("t", "s1")] :=
  store_unknown_session_is_noop _ "s2" "legal" "result" "report" (by decide)

/-- C2: for every provider environment, prompt and role, `call_hybrid_llm` is total
(the embedding is a Lean function — every exception of the providers is absorbed
inside `call_groq` / `call_ollama`, modelled by their `none` results) and returns a
non-empty string: either a provider response longer than 5 characters or one of the
static fallback strings. -/
theorem call_hybrid_llm_total_nonempty (env : LlmEnv) (prompt role : String) :
    call_hybrid_llm env prompt role ≠ "" ∧
    ((5 < (call_hybrid_llm env prompt role).length ∧
        (call_groq env = some (call_hybrid_llm env prompt role) ∨
          call_ollama env prompt = some (call_hybrid_llm env prompt role))) ∨
      call_hybrid_llm env prompt role = "No prompt provided" ∨
      call_hybrid_llm env prompt role = "Final report unavailable. Please retry." ∨
      call_hybrid_llm env prompt role = "Analysis unavailable. Please retry.") := by
  unfold call_hybrid_llm
  by_cases hp : prompt = ""
  · rw [if_pos hp]
    exact ⟨by decide, Or.inr (Or.inl rfl)⟩
  · rw [if_neg hp]
    cases hg : call_groq env with
    | none =>
      obtain ⟨h1, h2⟩ := hybridOllamaStage_spec env prompt role
      rcases h2 with ⟨hl, ho⟩ | h2
      · exact ⟨h1, Or.inl ⟨hl, Or.inr ho⟩⟩
      · exact ⟨h1, Or.inr (Or.inr h2)⟩
    | some g =>
      dsimp only
      by_cases hl : 5 < g.length
      · rw [if_pos hl]
        exact ⟨ne_empty_of_five_lt_length hl, Or.inl ⟨hl, Or.inl rfl⟩⟩
      · rw [if_neg hl]
        obtain ⟨h1, h2⟩ := hybridOllamaStage_spec env prompt role
        rcases h2 with ⟨hl', ho⟩ | h2
        · exact ⟨h1, Or.inl ⟨hl', Or.inr ho⟩⟩
        · exact ⟨h1, Or.inr (Or.inr h2)⟩

/-- C7: if every occurrence of a keyword in the (lower-cased) text is negated —
its up-to-25-character preceding window contains `"no "`, `"not "`, `"without "`
or `"absence of "` — then `_contains_term` is `false`, and consequently the keyword
contributes nothing to any of the keyword counts that make up
`calculate_risk_score` (prepending it to a keyword list leaves the count unchanged). -/
theorem contains_term_all_negated (text keyword : List Char)
    (h : ∀ i ≤ text.length, matchAt text keyword i = true → negatedAt text i = true) :
    containsTerm text keyword = false ∧
    ∀ ks, countHits text (keyword :: ks) = countHits text ks := by
  have hct : containsTerm text keyword = false := by
    unfold containsTerm
    split
    · rfl
    · rw [List.any_eq_false]
      intro i hi
      obtain ⟨hm, hle⟩ := finditerAux_mem_matchAt _ _ _ _ _ hi
      simp [h i hle hm]
  refine ⟨hct, fun ks => ?_⟩
  simp [countHits, List.filter_cons, hct]

/-- C7 witness: in `"no waive here"` the single occurrence of the high-risk keyword
`"waive"` is negated, `_contains_term` rejects it, and prepending `"waive"` to the
high-risk keyword list leaves the hit count on this text unchanged. -/
theorem contains_term_all_negated_witness :
    containsTerm (String.toList "no waive here") (String.toList "waive") = false ∧
    countHits (String.toList "no waive here")
        (String.toList "waive" :: high_risk_keywords) =
      countHits (String.toList "no waive here") high_risk_keywords :=
  ⟨(contains_term_all_negated _ _ (by decide)).1,
   (contains_term_all_negated _ _ (by decide)).2 high_risk_keywords⟩

/-- C1 counterexample: `_calculate_risk` uses Python `int()` (truncation), not
`round`: for the single clause score 1 the code yields `int((50 + 1) / 2) =
int(25.5) = 25`, while the claimed formula rounds 25.5 to 26 (also under Python's
round-half-to-even, since 26 is even). -/
theorem calculateRisk_not_round_at_one :
    (calculateRisk [⟨some 1⟩]).2 ≠ specRoundScore [1] := by
  have h1 : (calculateRisk [⟨some 1⟩]).2 = 25 := by
    rw [calculateRisk_snd]
    have hfm : ([⟨some 1⟩] : List Clause).filterMap (fun c => c.riskScore) = [1] := rfl
    rw [hfm]
    have ht : truncQ ((50 + (([1] : List Int).sum : ℚ) / (([1] : List Int).length : ℚ)) / 2) = 25 := by
      rw [truncQ, if_pos (by norm_num), Int.floor_eq_iff]
      norm_num
    simp only [List.isEmpty_cons, Bool.false_eq_true, if_false, ht]
    decide
  have h2 : specRoundScore [1] = 26 := by
    unfold specRoundScore
    have hr : round ((50 + (([1] : List Int).sum : ℚ) / (([1] : List Int).length : ℚ)) / 2) = 26 := by
      rw [round_eq, Int.floor_eq_iff]
      norm_num
    rw [hr]
    decide
  rw [h1, h2]
  decide

/-- C1 amended: for every clause list with at least one integer-convertible
`risk_score`, `_calculate_risk` returns `int((50 + mean(clause_scores)) / 2)` —
truncation toward zero, not rounding — clamped to `[0,100]`; with no convertible
clause score it returns the base 50. -/
theorem calculateRisk_trunc_spec (cs cs₂ : List Clause)
    (h : cs.filterMap (fun c => c.riskScore) ≠ [])
    (h₂ : cs₂.filterMap (fun c => c.riskScore) = []) :
    (calculateRisk cs).2 = specTruncScore (cs.filterMap (fun c => c.riskScore)) ∧
    (calculateRisk cs₂).2 = 50 := by
  constructor
  · rw [calculateRisk_snd, specTruncScore, if_neg]
    rw [isEmpty_false_of_ne_nil h]
    decide
  · rw [calculateRisk_snd, h₂]
    decide

/-- C1 witness: the amended formula at the concrete clause lists `[{risk_score: 1}]`
(one convertible score) and `[{risk_score: raising}]` (no convertible score). -/
theorem calculateRisk_trunc_spec_witness :
    (calculateRisk [⟨some 1⟩]).2 =
      specTruncScore (([⟨some 1⟩] : List Clause).filterMap (fun c => c.riskScore)) ∧
    (calculateRisk [⟨none⟩]).2 = 50 :=
  calculateRisk_trunc_spec _ _ (by decide) (by decide)

/-- C5: for every named task mapping and every completion order (any permutation of
it), `run_parallel_dict` returns — without raising, being a total function of the
observed outcomes — a mapping over exactly the given task names in which a raising
task's entry is `"ERROR"`, a timed-out task's entry is `"TIMEOUT"`, and a succeeding
task's entry is its returned value; and the executor's `_run_parallel_agents` does
the same with `""` as the placeholder for both failure modes. -/
theorem run_parallel_dict_isolates_failures
    (tasks completed : List (String × TaskOutcome))
    (hperm : completed.Perm tasks) :
    ((run_parallel_dict completed).map Prod.fst).Perm (tasks.map Prod.fst) ∧
    (∀ n o, (n, o) ∈ tasks → (n, interpretOutcome o) ∈ run_parallel_dict completed) ∧
    (∀ oc : AgentOutcomes, ∀ v : String,
      ((oc.legal = .raises ∨ oc.legal = .timeout) → (runParallelAgents oc).legal = "") ∧
      (oc.legal = .ok v → (runParallelAgents oc).legal = v) ∧
      ((oc.finance = .raises ∨ oc.finance = .timeout) → (runParallelAgents oc).finance = "") ∧
      (oc.finance = .ok v → (runParallelAgents oc).finance = v) ∧
      ((oc.compliance = .raises ∨ oc.compliance = .timeout) → (runParallelAgents oc).compliance = "") ∧
      (oc.compliance = .ok v → (runParallelAgents oc).compliance = v) ∧
      ((oc.operations = .raises ∨ oc.operations = .timeout) → (runParallelAgents oc).operations = "") ∧
      (oc.operations = .ok v → (runParallelAgents oc).operations = v)) := by
  refine ⟨?_, ?_, ?_⟩
  · rw [run_parallel_dict_eq_map, List.map_map]
    exact hperm.map _
  · intro n o hmem
    rw [run_parallel_dict_eq_map]
    exact List.mem_map_of_mem _ (hperm.mem_iff.mpr hmem)
  · intro oc v
    refine ⟨fun h => ?_, fun h => ?_, fun h => ?_, fun h => ?_,
            fun h => ?_, fun h => ?_, fun h => ?_, fun h => ?_⟩ <;>
      first
        | (rcases h with h | h <;> simp [runParallelAgents, interpretAgentOutcome, h])
        | simp [runParallelAgents, interpretAgentOutcome, h]

/-- C5 witness: four agent tasks of which `finance` raises, observed in a completion
order different from submission order: the result maps the same four names, `finance`
to `"ERROR"` and the others to their values. -/
theorem run_parallel_dict_isolates_failures_witness :
    ((run_parallel_dict
        [("finance", .raises), ("operations", .ok "O"), ("legal", .ok "L"),
         ("compliance", .ok "C")]).map Prod.fst).Perm
      ([("legal", TaskOutcome.ok "L"), ("finance", .raises), ("compliance", .ok "C"),
        ("operations", .ok "O")].map Prod.fst) ∧
    ("finance", "ERROR") ∈ run_parallel_dict
        [("finance", .raises), ("operations", .ok "O"), ("legal", .ok "L"),
         ("compliance", .ok "C")] ∧
    ("legal", "L") ∈ run_parallel_dict
        [("finance", .raises), ("operations", .ok "O"), ("legal", .ok "L"),
         ("compliance", .ok "C")] :=
  ⟨(run_parallel_dict_isolates_failures
      [("legal", .ok "L"), ("finance", .raises), ("compliance", .ok "C"), ("operations", .ok "O")]
      [("finance", .raises), ("operations", .ok "O"), ("legal", .ok "L"), ("compliance", .ok "C")]
      (by decide)).1,
   (run_parallel_dict_isolates_failures
      [("legal", .ok "L"), ("finance", .raises), ("compliance", .ok "C"), ("operations", .ok "O")]
      [("finance", .raises), ("operations", .ok "O"), ("legal", .ok "L"), ("compliance", .ok "C")]
      (by decide)).2.1 "finance" .raises (by decide),
   (run_parallel_dict_isolates_failures
      [("legal", .ok "L"), ("finance", .raises), ("compliance", .ok "C"), ("operations", .ok "O")]
      [("finance", .raises), ("operations", .ok "O"), ("legal", .ok "L"), ("compliance", .ok "C")]
      (by decide)).2.1 "legal" (.ok "L") (by decide)⟩

/-- C6: for `None`, empty or whitespace-only contract text (anything whose Python
`strip()` is empty), `execute_full_analysis` returns the initial result with
`status = "failed"` and the single error `"No contract text provided"`, all other
fields at their defaults — and performs no classifier, agent, clause or gateway
call: the result is identical for every instantiation of the pipeline stages. -/
theorem executeFullAnalysis_empty_input (p p' : Pipeline) (t : Option String)
    (focus focus' : String) (h : pyStrip (t.getD "") = "") :
    (executeFullAnalysis p t focus).status = "failed" ∧
    (executeFullAnalysis p t focus).errors = ["No contract text provided"] ∧
    (executeFullAnalysis p t focus).errors ≠ [] ∧
    executeFullAnalysis p t focus =
      { initialResult with status := "failed", errors := ["No contract text provided"] } ∧
    executeFullAnalysis p t focus = executeFullAnalysis p' t focus' := by
  have he : ∀ (q : Pipeline) (f : String), executeFullAnalysis q t f =
      { initialResult with status := "failed", errors := ["No contract text provided"] } := by
    intro q f
    unfold executeFullAnalysis
    rw [if_pos h]
  refine ⟨?_, ?_, ?_, he p focus, (he p focus).trans (he p' focus').symm⟩
  · rw [he p focus]
  · rw [he p focus]
  · rw [he p focus]
    decide

/-- C6 witness: a whitespace-only submission fails identically under two entirely
different pipelines, with the defaulted result record. -/
theorem executeFullAnalysis_empty_input_witness :
    (executeFullAnalysis constPipeline (some "   ") "focus").status = "failed" ∧
    (executeFullAnalysis constPipeline (some "   ") "focus").errors =
      ["No contract text provided"] ∧
    (executeFullAnalysis constPipeline (some "   ") "focus").errors ≠ [] ∧
    executeFullAnalysis constPipeline (some "   ") "focus" =
      { initialResult with status := "failed", errors := ["No contract text provided"] } ∧
    executeFullAnalysis constPipeline (some "   ") "focus" =
      executeFullAnalysis altPipeline (some "   ") "other focus" :=
  executeFullAnalysis_empty_input constPipeline altPipeline (some "   ")
    "focus" "other focus" (by decide)

/-- C4: creating a session twice for the same contract text (more generally, any two
texts that agree after stripping, since the duplicate-detection hash is taken over
the stripped text) returns the same session id both times and leaves the store
unchanged on the second call — no new session record is created. -/
theorem create_session_idempotent
    (m : ContractMemory) (f1 c1 f2 c2 : String) (n1 n2 ty1 ty2 : Option String)
    (s1 s2 : String) (h1 : s1 ≠ "") (h2 : s2 ≠ "") (ht : memHash s1 = memHash s2)
    (sid : String) (m' : ContractMemory)
    (hcall : m.create_session f1 c1 n1 (some s1) ty1 = (.ok sid, m')) :
    m'.create_session f2 c2 n2 (some s2) ty2 = (.ok sid, m') := by
  unfold ContractMemory.create_session ContractMemory.find_duplicate at hcall ⊢
  dsimp only at hcall ⊢
  rw [if_neg h1] at hcall
  rw [if_neg h2, if_neg h2, ← ht]
  cases hfd : m.contract_hash_map.lookup (memHash s1) with
  | some dup =>
    rw [if_neg h1, hfd] at hcall
    dsimp only at hcall
    rw [Prod.mk.injEq] at hcall
    obtain ⟨hsid, hm⟩ := hcall
    injection hsid with hsid
    subst hm
    rw [hfd]
    dsimp only
    rw [hsid]
  | none =>
    rw [if_neg h1, hfd] at hcall
    dsimp only at hcall
    rw [Prod.mk.injEq] at hcall
    obtain ⟨hsid, hm⟩ := hcall
    injection hsid with hsid
    subst hm
    dsimp only
    rw [lookup_dictInsert_self]
    dsimp only
    rw [hsid]

/-- C4 witness: submitting `"abc"` and then `"  abc  "` (identical after stripping)
to a fresh store: the second call returns the first call's session id and the store
after the second call is exactly the store after the first. -/
theorem create_session_idempotent_witness :
    (ContractMemory.mk
        [("id1", { name := "Untitled Contract", text := "abc", stype := "Unknown",
                   analyses := [], final_report := "", created := "d1" })]
        [("abc", "id1")]).create_session "id2" "d2" none (some "  abc  ") none =
      (.ok "id1",
       ContractMemory.mk
        [("id1", { name := "Untitled Contract", text := "abc", stype := "Unknown",
                   analyses := [], final_report := "", created := "d1" })]
        [("abc", "id1")]) :=
  create_session_idempotent (ContractMemory.mk [] []) "id1" "d1" "id2" "d2"
    none none none none "abc" "  abc  " (by decide) (by decide) (by decide)
    "id1" _ rfl

/-- C10: `create_session` raises `ValueError` exactly when the contract text is
falsy (`None` or `""`), leaving the store unchanged in that case; a whitespace-only
text is truthy, so it does not raise and (absent a prior duplicate) registers its
session under the duplicate-detection hash of the empty string. -/
theorem create_session_falsy_guard
    (m : ContractMemory) (fresh created : String) (name ty : Option String)
    (t : Option String) :
    ((∃ e, (m.create_session fresh created name t ty).1 = .error e) ↔
      (t = none ∨ t = some "")) ∧
    ((t = none ∨ t = some "") → (m.create_session fresh created name t ty).2 = m) ∧
    (∀ w, t = some w → w ≠ "" → memHash w = "" →
      m.contract_hash_map.lookup (memHash "") = none →
      (m.create_session fresh created name t ty).2.contract_hash_map =
        dictInsert m.contract_hash_map (memHash "") fresh) := by
  cases t with
  | none =>
    refine ⟨⟨fun _ => Or.inl rfl, fun _ => ⟨"Empty contract text", rfl⟩⟩, fun _ => rfl, ?_⟩
    intro w hw
    exact absurd hw (by simp)
  | some s =>
    by_cases hs : s = ""
    · subst hs
      refine ⟨⟨fun _ => Or.inr rfl, fun _ => ⟨"Empty contract text", rfl⟩⟩, fun _ => rfl, ?_⟩
      intro w hw hne
      injection hw with hw
      exact absurd hw.symm hne
    · have hok : ∀ x, (ContractMemory.create_session m fresh created name (some s) ty).1 ≠
          Except.error x := by
        intro x
        unfold ContractMemory.create_session
        dsimp only
        rw [if_neg hs]
        cases hfd : m.find_duplicate s with
        | some dup => simp
        | none => simp
      refine ⟨⟨?_, ?_⟩, ?_, ?_⟩
      · rintro ⟨e, he⟩
        exact absurd he (hok e)
      · rintro (h | h)
        · exact absurd h (by simp)
        · injection h with h
          exact absurd h hs
      · rintro (h | h)
        · exact absurd h (by simp)
        · injection h with h
          exact absurd h hs
      · intro w hw hne hstrip hlk
        injection hw with hw
        subst hw
        unfold ContractMemory.create_session ContractMemory.find_duplicate
        dsimp only
        rw [if_neg hs, if_neg hs, hstrip]
        have hme : memHash "" = "" := rfl
        rw [hme] at hlk
        rw [hlk]
        rfl

/-- C10 witness: on a fresh store, `create_session` with text `None` errors and
leaves the store unchanged, and with the whitespace-only text `"   "` it registers
the session under the hash of the empty string. -/
theorem create_session_falsy_guard_witness :
    (∃ e, ((ContractMemory.mk [] []).create_session "id1" "d1" none none none).1 =
      .error e) ∧
    ((ContractMemory.mk [] []).create_session "id1" "d1" none none none).2 =
      ContractMemory.mk [] [] ∧
    ((ContractMemory.mk [] []).create_session "id1" "d1" none (some "   ") none).2.contract_hash_map =
      dictInsert ([] : List (String × String)) (memHash "") "id1" :=
  ⟨(create_session_falsy_guard (ContractMemory.mk [] []) "id1" "d1" none none none).1.mpr
      (Or.inl rfl),
   (create_session_falsy_guard (ContractMemory.mk [] []) "id1" "d1" none none none).2.1
      (Or.inl rfl),
   (create_session_falsy_guard (ContractMemory.mk [] []) "id1" "d1" none none
      (some "   ")).2.2 "   " rfl (by decide) (by decide) (by decide)⟩

/-- C8: starting from a history with at most `MAX_HISTORY` (10) entries,
`save_contract` leaves at most 10 entries; and when the bound would be exceeded
(10 entries, new hash) the evicted entry is exactly the oldest — the head of the
insertion-ordered object — so the result is the old tail plus the new entry at the
end. -/
theorem save_contract_bounded
    (history : List (String × HistoryEntry))
    (cname ctext ctype risk report agents planner date : String)
    (hlen : history.length ≤ MAX_HISTORY) :
    (save_contract history cname ctext ctype risk report agents planner date).length ≤
      MAX_HISTORY ∧
    (history.length = MAX_HISTORY → get_contract_hash ctext ∉ history.map Prod.fst →
      save_contract history cname ctext ctype risk report agents planner date =
        history.tail ++ [(get_contract_hash ctext,
          { name := cname, date := date, risk := risk, contract_type := ctype,
            report := report, agents := agents, planner := planner, text := ctext })]) := by
  have hevict : history.length = MAX_HISTORY →
      get_contract_hash ctext ∉ history.map Prod.fst →
      save_contract history cname ctext ctype risk report agents planner date =
        history.tail ++ [(get_contract_hash ctext,
          { name := cname, date := date, risk := risk, contract_type := ctype,
            report := report, agents := agents, planner := planner, text := ctext })] := by
    intro hfull hnotmem
    unfold save_contract
    dsimp only
    rw [dictInsert_of_not_mem _ (any_key_eq_false hnotmem)]
    rw [if_pos (by simp [List.length_append, hfull, MAX_HISTORY])]
    cases history with
    | nil => simp [MAX_HISTORY] at hfull
    | cons a rest =>
      rw [List.cons_append]
      rw [List.head?_cons]
      dsimp only
      unfold dictDelete
      rw [List.eraseP_cons_of_pos]
      · rfl
      · simp
  refine ⟨?_, hevict⟩
  cases hany : history.any (fun p => p.1 == get_contract_hash ctext) with
  | true =>
    unfold save_contract
    dsimp only
    rw [dictInsert_of_mem _ hany]
    rw [if_neg (by rw [List.length_map]; omega)]
    rw [List.length_map]
    exact hlen
  | false =>
    by_cases hfull : history.length = MAX_HISTORY
    · have hnotmem : get_contract_hash ctext ∉ history.map Prod.fst := by
        intro hmem
        rw [List.any_eq_false] at hany
        obtain ⟨p, hp, hpk⟩ := List.mem_map.mp hmem
        exact (hany p hp) (by simp [hpk])
      rw [hevict hfull hnotmem]
      rw [List.length_append, List.length_tail, hfull]
      simp [MAX_HISTORY]
    · unfold save_contract
      dsimp only
      rw [dictInsert_of_not_mem _ hany]
      rw [if_neg (by rw [List.length_append]; simp [MAX_HISTORY] at hlen hfull ⊢; omega)]
      rw [List.length_append]
      simp only [List.length_singleton]
      simp [MAX_HISTORY] at hlen hfull ⊢
      omega

/-- C8 witness: saving a contract with a new hash into a full ten-entry history
evicts exactly the oldest entry `"k0"` and appends the new entry, leaving ten
entries. -/
theorem save_contract_bounded_witness :
    (save_contract sampleHistory "n2" "newtext" "NDA" "High" "r" "a" "p" "d2").length ≤
      MAX_HISTORY ∧
    save_contract sampleHistory "n2" "newtext" "NDA" "High" "r" "a" "p" "d2" =
      sampleHistory.tail ++ [(get_contract_hash "newtext",
        { name := "n2", date := "d2", risk := "High", contract_type := "NDA",
          report := "r", agents := "a", planner := "p", text := "newtext" })] :=
  ⟨(save_contract_bounded sampleHistory "n2" "newtext" "NDA" "High" "r" "a" "p" "d2"
      (by decide)).1,
   (save_contract_bounded sampleHistory "n2" "newtext" "NDA" "High" "r" "a" "p" "d2"
      (by decide)).2 (by decide) (by decide)⟩

end ClauseAi

